import Mathlib

/-!
Verification of `enterprise_reporting/validate_enterprise_data.py`.

The file shallowly embeds the reconciliation pipeline of the script: the
datetime values it compares and formats, the key canonicalizer (Python
`str`), the grouping dictionaries (`defaultdict(list)` keyed by
`str(lms_user_id)`), the `EnterpriseLearner` entity with its enrollment
filtering rule, the CSV exporter, the query strings the pipeline builds,
and the stage-chaining of `validate_enterprise_data`.  External stores are
modelled as lists of typed rows; a SQL `user_id in (...)` join is embedded
as a filter keeping the rows whose canonical key occurs in the
interpolated identifier list.
-/

/-- A wall-clock instant, as Python `datetime.datetime` (no timezone,
microseconds unused by the script). -/
structure DateTime where
  year : Nat
  month : Nat
  day : Nat
  hour : Nat
  minute : Nat
  second : Nat
deriving DecidableEq

/-- Python `datetime` comparison `a <= b`: lexicographic on the fields. -/
def DateTime.lexLe (a b : DateTime) : Bool :=
  (a.year < b.year) || (a.year == b.year && (
    (a.month < b.month) || (a.month == b.month && (
      (a.day < b.day) || (a.day == b.day && (
        (a.hour < b.hour) || (a.hour == b.hour && (
          (a.minute < b.minute) || (a.minute == b.minute &&
            a.second ≤ b.second)))))))))

/-- Zero-pad a numeral to two digits, as strftime field formatting does. -/
def pad2 (n : Nat) : String :=
  if n < 10 then "0" ++ toString n else toString n

/-- Zero-pad a year to four digits (`%Y`). -/
def pad4 (n : Nat) : String :=
  if n < 10 then "000" ++ toString n
  else if n < 100 then "00" ++ toString n
  else if n < 1000 then "0" ++ toString n
  else toString n

/-- Python `dt.strftime('%Y-%m-%d %H:%M:%S')`. -/
def DateTime.strftimeFull (d : DateTime) : String :=
  pad4 d.year ++ "-" ++ pad2 d.month ++ "-" ++ pad2 d.day ++ " " ++
    pad2 d.hour ++ ":" ++ pad2 d.minute ++ ":" ++ pad2 d.second

/-- Python `now.strftime('%Y%m%d%H%M')`, used in the export file name. -/
def DateTime.strftimeStamp (d : DateTime) : String :=
  pad4 d.year ++ pad2 d.month ++ pad2 d.day ++ pad2 d.hour ++ pad2 d.minute

/-- ENTERPRISE_CUTOFF_DATE = datetime.datetime(2017, 5, 1) (line 24). -/
def ENTERPRISE_CUTOFF_DATE : DateTime := ⟨2017, 5, 1, 0, 0, 0⟩

/-- A scalar user identifier as either store may return it: a native
integer or a native string. -/
inductive Scalar where
  | int : Int → Scalar
  | str : String → Scalar
deriving DecidableEq

/-- The key canonicalizer: Python `str(record['lms_user_id'])`, the textual
conversion applied at every grouping point of the pipeline. -/
def canonicalize : Scalar → String
  | .int n => toString n
  | .str s => s

/-- Python `str` on a boolean (`str(enrollment['is_active'])`). -/
def pyBoolStr (b : Bool) : String :=
  if b then "True" else "False"

/-- One `student_courseenrollment` row as consumed by
`EnterpriseLearner` (keys `course_id`, `created`, `is_active`, `mode`). -/
structure CourseEnrollment where
  lms_user_id : Scalar
  course_id : String
  created : DateTime
  is_active : Bool
  mode : String
deriving DecidableEq

/-- The four cells appended for one enrollment inside
`EnterpriseLearner.enrollment_info` (lines 136-141). -/
def enrollmentCells (e : CourseEnrollment) : List String :=
  [e.course_id, e.created.strftimeFull, pyBoolStr e.is_active, e.mode]

/-- The `EnterpriseLearner` entity (lines 112-120): identity fields plus the
owned sequence of course-enrollment records. -/
structure EnterpriseLearner where
  lms_user_id : String
  lms_user_username : String
  enterprise_name : String
  ecu_created : DateTime
  course_enrollments : List CourseEnrollment
deriving DecidableEq

/-- `EnterpriseLearner.learner_info` (lines 122-129). -/
def EnterpriseLearner.learner_info (l : EnterpriseLearner) : List String :=
  [l.lms_user_id, l.lms_user_username, l.enterprise_name,
    l.ecu_created.strftimeFull]

/-- The accumulation loop of `enrollment_info` (lines 132-142): walk the
owned enrollments in order, keeping one row of cells for each enrollment
admitted by `not exclude_non_enterprise or created >= ecu_created`. -/
def enrollmentLoop (ecu_created : DateTime) (exclude_non_enterprise : Bool) :
    List CourseEnrollment → List (List String)
  | [] => []
  | e :: rest =>
    if !exclude_non_enterprise || DateTime.lexLe ecu_created e.created then
      enrollmentCells e :: enrollmentLoop ecu_created exclude_non_enterprise rest
    else
      enrollmentLoop ecu_created exclude_non_enterprise rest

/-- `EnterpriseLearner.enrollment_info(exclude_non_enterprise)` (line 131);
the Python default for the flag is `True`. -/
def EnterpriseLearner.enrollment_info (l : EnterpriseLearner)
    (exclude_non_enterprise : Bool) : List (List String) :=
  enrollmentLoop l.ecu_created exclude_non_enterprise l.course_enrollments

/-- `EnterpriseLearner.export_enrollments` (lines 144-146): the rows this
learner writes, one per filtered enrollment, each prefixed by the identity
cells.  The writer is modelled as the list of rows written. -/
def EnterpriseLearner.export_enrollments (l : EnterpriseLearner) :
    List (List String) :=
  (l.enrollment_info true).map (fun e => l.learner_info ++ e)

/-- The fixed header row written first (lines 98-107). -/
def exportHeader : List String :=
  ["LMS User ID", "LMS Username", "Enterprise Customer Name",
   "EnterpriseCustomerUser Created", "Course ID", "Enrollment Created",
   "Enrollment Active", "Enrollment Mode"]

/-- A written delimited file: its name and its rows in order. -/
structure CsvFile where
  name : String
  rows : List (List String)
deriving DecidableEq

/-- `export_missing_enterprise_course_enrollments` (lines 93-109): one file
named with the run timestamp, header first, then each learner's rows. -/
def export_missing_enterprise_course_enrollments (now : DateTime)
    (enterprise_learners : List EnterpriseLearner) : CsvFile :=
  { name := "../output/missing_enterprise_course_enrollments_" ++
      now.strftimeStamp ++ ".csv"
    rows := exportHeader ::
      enterprise_learners.flatMap EnterpriseLearner.export_enrollments }

/-! ## Grouping dictionaries

`defaultdict(list)` accumulation keyed by `str(lms_user_id)`, modelled as an
association list in key first-insertion order (Python dicts preserve it). -/

/-- `d[k].append(v)` on a `defaultdict(list)`: extend the existing group or
create a singleton group at the end. -/
def insertGroup {α : Type} (m : List (String × List α)) (k : String) (v : α) :
    List (String × List α) :=
  match m with
  | [] => [(k, [v])]
  | (k', vs) :: rest =>
    if k' = k then (k', vs ++ [v]) :: rest else (k', vs) :: insertGroup rest k v

/-- The grouping loops of the pipeline (lines 173-176, 234-237, 337-340):
fold a row sequence into a keyed map of groups. -/
def groupByKey {α : Type} (key : α → String) (rs : List α) :
    List (String × List α) :=
  rs.foldl (fun m r => insertGroup m (key r) r) []

/-- `d.keys()` of the grouping dictionary, in insertion order. -/
def keysOf {α : Type} (m : List (String × List α)) : List String :=
  m.map Prod.fst

/-- `d.pop(k)` with no default: the removed group and the remaining map, or
`none` (Python raises `KeyError`) when the key is absent. -/
def popKey {α : Type} (m : List (String × List α)) (k : String) :
    Option (List α × List (String × List α)) :=
  match m with
  | [] => none
  | (k', vs) :: rest =>
    if k' = k then some (vs, rest)
    else (popKey rest k).map (fun p => (p.1, (k', vs) :: p.2))

/-- `d[k]` lookup returning the group (empty when absent, as the
`defaultdict` default factory would create). -/
def getGroup {α : Type} (m : List (String × List α)) (k : String) : List α :=
  match m with
  | [] => []
  | (k', vs) :: rest => if k' = k then vs else getGroup rest k

/-- `d[k] = v` on a plain dict: update in place or append a new entry. -/
def upsert {α : Type} (m : List (String × α)) (k : String) (v : α) :
    List (String × α) :=
  match m with
  | [] => [(k, v)]
  | (k', v') :: rest =>
    if k' = k then (k', v) :: rest else (k', v') :: upsert rest k v

/-! ## Store rows and query strings -/

/-- One row of the analytics `business_intelligence.enterprise_enrollment`
query result; only the columns the pipeline consumes are listed, the
remaining selected columns are never read by the script. -/
structure VerticaRecord where
  lms_user_id : Scalar
  user_username : String
  enterprise_name : String
deriving DecidableEq

/-- One row of the S1 transactional join (lines 183-200): an
`enterprise_enterprisecourseenrollment` record joined to its user. -/
structure EceRecord where
  created : DateTime
  modified : DateTime
  course_id : String
  lms_user_id : Scalar
deriving DecidableEq

/-- One `enterprise_enterprisecustomeruser` row (lines 253-264). -/
structure EcuRecord where
  user_id : Scalar
  created : DateTime
deriving DecidableEq

/-- One `auth_user` row of the account-age query (lines 292-303). -/
structure AuthUserRecord where
  lms_user_id : Scalar
  date_joined : DateTime
deriving DecidableEq

/-- `query_filter` construction (lines 164-166).  The base condition is
assigned first; a truthy `enterprise_customer` REPLACES it (`=`, not `+=`)
with a fragment beginning `" AND "`. -/
def query_filter (enterprise_customer : Option String) : String :=
  match enterprise_customer with
  | none => "lms_user_id IS NOT NULL"
  | some ec =>
    if ec.isEmpty then "lms_user_id IS NOT NULL"
    else " AND enterprise_id = \x27" ++ ec ++ "\x27"

/-- `VERTICA_QUERY.format(where=w)` (lines 26-51). -/
def vertica_query (w : String) : String :=
  "\n    SELECT\n        enterprise_user_id,\n        lms_user_id,\n        enterprise_sso_uid,\n        enterprise_id,\n        enterprise_name,\n        enrollment_created_timestamp,\n        consent_granted,\n        course_id,\n        user_account_creation_date,\n        user_email,\n        user_username,\n        user_age,\n        user_level_of_education,\n        user_gender,\n        user_country_code,\n        country_name,\n        has_passed,\n        last_activity_date,\n        user_current_enrollment_mode\n    FROM\n        business_intelligence.enterprise_enrollment\n    WHERE\n        " ++ w ++ "\n"

/-- The S1 transactional join query string (lines 183-199), with the keys
of the working group interpolated by `','.join(...)`. -/
def s1QueryString (user_ids : List String) : String :=
  "\n        SELECT\n            ece.created AS created,\n            ece.modified AS modified,\n            ece.course_id AS course_id,\n            u.id AS lms_user_id\n        FROM\n            auth_user u,\n            enterprise_enterprisecustomeruser ecu,\n            enterprise_enterprisecourseenrollment ece\n        WHERE\n            ece.enterprise_customer_user_id = ecu.id AND\n            ecu.user_id = u.id AND\n            u.id in (" ++ String.intercalate "," user_ids ++ ")\n    "

/-- The S2 `student_courseenrollment` query string (lines 218-231). -/
def s2QueryString (user_ids : List String) : String :=
  "\n        SELECT\n            user_id AS lms_user_id,\n            course_id,\n            created,\n            is_active,\n            mode\n        FROM\n            student_courseenrollment\n        WHERE\n            user_id in (" ++ String.intercalate "," user_ids ++ ")\n    "

/-- Semantics of a `user_id in (id-list)` join against a store: the store
rows whose canonical user key occurs in the interpolated identifier list,
in store order (inclusion by exact key match). -/
def fetchByUserIds {α : Type} (key : α → Scalar) (store : List α)
    (user_ids : List String) : List α :=
  store.filter (fun r => user_ids.contains (canonicalize (key r)))

/-! ## Pipeline stages -/

/-- The S1 resolution loop (lines 202-207): for each returned join record,
`user_enterprise_enrollments.pop(str(record['lms_user_id']))` — `pop` with
no default raises `KeyError` (modelled as `Except.error` carrying the key)
when the key is no longer present. -/
def removeResolvedLoop :
    List (String × List VerticaRecord) → List EceRecord →
    Except String (List (String × List VerticaRecord))
  | m, [] => .ok m
  | m, r :: rest =>
    match popKey m (canonicalize r.lms_user_id) with
    | none => .error ("KeyError: " ++ canonicalize r.lms_user_id)
    | some p => removeResolvedLoop p.2 rest

/-- The S3 construction loop (lines 266-280): one `EnterpriseLearner` per
`enterprise_enterprisecustomeruser` row, taking identity fields from
`user_enterprise_enrollments[k][0]` (an `IndexError`, modelled as
`Except.error`, if that group were empty) and the enrollment list from
`user_course_enrollments[k]`; learners are stored in a dict keyed by the
canonical user key. -/
def buildLearnersLoop (g1 : List (String × List VerticaRecord))
    (g2 : List (String × List CourseEnrollment)) :
    List (String × EnterpriseLearner) → List EcuRecord →
    Except String (List (String × EnterpriseLearner))
  | acc, [] => .ok acc
  | acc, ecu :: rest =>
    match getGroup g1 (canonicalize ecu.user_id) with
    | [] => .error ("IndexError: " ++ canonicalize ecu.user_id)
    | ve :: _ =>
      buildLearnersLoop g1 g2
        (upsert acc (canonicalize ecu.user_id)
          ⟨canonicalize ecu.user_id, ve.user_username, ve.enterprise_name,
            ecu.created, getGroup g2 (canonicalize ecu.user_id)⟩)
        rest

/-- The S4 account-age split loop (lines 305-314): `date_joined >=
ENTERPRISE_CUTOFF_DATE` appends to `enterprise_accounts`, otherwise to
`existing_accounts`; returns `(existing_accounts, enterprise_accounts)`. -/
def splitAccounts :
    List AuthUserRecord → List AuthUserRecord × List AuthUserRecord
  | [] => ([], [])
  | r :: rest =>
    let p := splitAccounts rest
    if DateTime.lexLe ENTERPRISE_CUTOFF_DATE r.date_joined then
      (p.1, r :: p.2)
    else
      (r :: p.1, p.2)

/-- Everything one run of `validate_enterprise_data` computes that later
code (or a claim) can observe: the issued query strings, the populations of
each stage, the deliverable learners, the account-age split, and the files
written.  `files` is `[]` because the call to
`export_missing_enterprise_course_enrollments` at line 287 is commented
out in the source. -/
structure PipelineRun where
  s0_query : String
  P0 : List String
  s1_query : String
  P1 : List String
  s2_query : String
  P2 : List String
  enterprise_learners_no_enrollments : List String
  enterprise_learners : List (String × EnterpriseLearner)
  existing_accounts : List AuthUserRecord
  enterprise_accounts : List AuthUserRecord
  files : List CsvFile
deriving DecidableEq

/-- `validate_enterprise_data` (lines 163-316).  The two stores are passed
as data: `analytics_unmatched` is the result of the S0 analytics fetch
(the analytics store is queried by an opaque query string, so its result
is an input); the transactional store is passed per table and each
`... in (id-list)` query is evaluated by `fetchByUserIds`.  The
diagnostic consent stages (lines 318-398) only log counts — and the S6
follow-up fetch is itself commented out — so they contribute nothing
observable and are not recorded in the run. -/
def validate_enterprise_data (enterprise_customer : Option String)
    (analytics_unmatched : List VerticaRecord)
    (ece_store : List EceRecord)
    (sce_store : List CourseEnrollment)
    (ecu_store : List EcuRecord)
    (auth_store : List AuthUserRecord) :
    Except String PipelineRun :=
  let qf := query_filter enterprise_customer
  let s0q := vertica_query (qf ++ " AND course_id IS NULL")
  let g0 := groupByKey (fun r => canonicalize r.lms_user_id) analytics_unmatched
  let p0 := keysOf g0
  let q1 := s1QueryString p0
  let ece_rows := fetchByUserIds (fun r => r.lms_user_id) ece_store p0
  match removeResolvedLoop g0 ece_rows with
  | .error e => .error e
  | .ok g1 =>
    let p1 := keysOf g1
    let q2 := s2QueryString p1
    let sce_rows := fetchByUserIds (fun r => r.lms_user_id) sce_store p1
    let g2 := groupByKey (fun r => canonicalize r.lms_user_id) sce_rows
    let p2 := keysOf g2
    let noEnroll := p1.filter (fun k => !(p2.contains k))
    let ecu_rows := fetchByUserIds (fun r => r.user_id) ecu_store p2
    match buildLearnersLoop g1 g2 [] ecu_rows with
    | .error e => .error e
    | .ok learners =>
      let auth_rows := fetchByUserIds (fun r => r.lms_user_id) auth_store p2
      let split := splitAccounts auth_rows
      .ok ⟨s0q, p0, q1, p1, q2, p2, noEnroll, learners, split.1, split.2, []⟩

/-! ## Gateway fetch helpers (lines 54-83) -/

/-- The errors distinguishable in the fetch helpers: a store-connection
failure, a query failure, and Python's unbound-local `NameError`. -/
inductive PyError where
  | connectionError : PyError
  | queryError : PyError
  | nameError : PyError
deriving DecidableEq

/-- Outcome of one fetch helper invocation: its returned value or raised
error, whether a connection was acquired, and whether it was released. -/
structure FetchTrace (ρ : Type) where
  result : Except PyError (List ρ)
  acquired : Bool
  released : Bool

/-- `fetch_lms_data` (lines 54-70): `connection = mysql.connector.connect(...)`
sits INSIDE the `try`, so when acquisition raises, the `finally` clause
evaluates `connection.close()` on the unbound local `connection`, and the
resulting `NameError` replaces the in-flight acquisition error.  When
acquisition succeeds, the `finally` clause closes the connection on both
the success and the query-failure path. -/
def fetch_lms_data {ρ : Type} (connect : Except PyError Unit)
    (execute : Except PyError (List ρ)) : FetchTrace ρ :=
  match connect with
  | .error _ => ⟨.error .nameError, false, false⟩
  | .ok _ =>
    match execute with
    | .error e => ⟨.error e, true, true⟩
    | .ok rows => ⟨.ok rows, true, true⟩

/-- `fetch_vertica_data` (lines 73-83): the connection is acquired by a
`with` statement, so an acquisition failure propagates unchanged with
nothing acquired, and once the block is entered the connection is released
on both exit paths. -/
def fetch_vertica_data {ρ : Type} (connect : Except PyError Unit)
    (execute : Except PyError (List ρ)) : FetchTrace ρ :=
  match connect with
  | .error e => ⟨.error e, false, false⟩
  | .ok _ =>
    match execute with
    | .error e => ⟨.error e, true, true⟩
    | .ok rows => ⟨.ok rows, true, true⟩

/-! ## Small string helpers for reasoning about the built query text -/

/-- Whether `pre` is character-for-character the front of `l`. -/
def charsLead : List Char → List Char → Bool
  | [], _ => true
  | _ :: _, [] => false
  | a :: as, b :: bs => a == b && charsLead as bs

/-- Whether `needle` occurs contiguously anywhere inside `hay`. -/
def charsHave (needle : List Char) : List Char → Bool
  | [] => needle.isEmpty
  | b :: bs => charsLead needle (b :: bs) || charsHave needle bs

/-- Substring test on strings, via their character lists. -/
def strHas (hay needle : String) : Bool :=
  charsHave needle.data hay.data

/-- Front-of-string test. -/
def strLeads (hay pre : String) : Bool :=
  charsLead pre.data hay.data

/-- Whether an `Except` computation finished without raising. -/
def isOkE {ε α : Type} : Except ε α → Bool
  | .ok _ => true
  | .error _ => false

/-! ## Concrete sample data (used by witness and counterexample theorems) -/

/-- An enrollment created before the sample learner became an
enterprise-customer-user. -/
def sampleEnrollPre : CourseEnrollment :=
  ⟨.int 7, "X100", ⟨2019, 12, 1, 0, 0, 0⟩, true, "audit"⟩

/-- An enrollment created after the sample learner became an
enterprise-customer-user. -/
def sampleEnrollPost : CourseEnrollment :=
  ⟨.int 7, "X101", ⟨2020, 1, 10, 9, 30, 0⟩, true, "verified"⟩

/-- A learner with a mix of pre- and post-cutoff enrollments. -/
def sampleLearner : EnterpriseLearner :=
  ⟨"7", "ann", "Acme", ⟨2020, 1, 5, 0, 0, 0⟩, [sampleEnrollPre, sampleEnrollPost]⟩

/-- The one row the sample learner exports. -/
def sampleExportRow : List String :=
  sampleLearner.learner_info ++ enrollmentCells sampleEnrollPost

/-- An account joined the day before the enterprise cutoff. -/
def accountPre : AuthUserRecord := ⟨.int 1, ⟨2017, 4, 30, 0, 0, 0⟩⟩

/-- An account joined on the enterprise cutoff day. -/
def accountPost : AuthUserRecord := ⟨.int 2, ⟨2017, 5, 1, 0, 0, 0⟩⟩

/-- Sample S0 analytics result: two unmatched learners. -/
def sampleAnalytics : List VerticaRecord :=
  [⟨.int 7, "ann", "Acme"⟩, ⟨.int 8, "bob", "Acme"⟩]

/-- Sample transactional store: learner 8 is resolved elsewhere. -/
def sampleEceStore : List EceRecord :=
  [⟨⟨2020, 1, 6, 0, 0, 0⟩, ⟨2020, 1, 6, 0, 0, 0⟩, "X200", .int 8⟩]

/-- Sample `student_courseenrollment` store: learner 7's two enrollments. -/
def sampleSceStore : List CourseEnrollment :=
  [sampleEnrollPre, sampleEnrollPost]

/-- Sample `enterprise_enterprisecustomeruser` store. -/
def sampleEcuStore : List EcuRecord :=
  [⟨.int 7, ⟨2020, 1, 5, 0, 0, 0⟩⟩]

/-- Sample `auth_user` account-creation store. -/
def sampleAuthStore : List AuthUserRecord :=
  [⟨.int 7, ⟨2017, 5, 1, 0, 0, 0⟩⟩]

/-- A vacuous run record, used only as the unreachable fallback when
extracting the value of a run known to complete. -/
def fallbackRun : PipelineRun :=
  ⟨"", [], "", [], "", [], [], [], [], [], []⟩

/-- The completed run on the sample stores. -/
def sampleRun : PipelineRun :=
  match validate_enterprise_data none sampleAnalytics sampleEceStore
      sampleSceStore sampleEcuStore sampleAuthStore with
  | .ok r => r
  | .error _ => fallbackRun

/-- The completed run on entirely empty stores. -/
def emptyRun : PipelineRun :=
  match validate_enterprise_data none [] [] [] [] [] with
  | .ok r => r
  | .error _ => fallbackRun

/-! # Theorems -/

/-- With the flag set, the enrollment loop keeps exactly the enrollments
created on or after the cutoff, in order. -/
theorem enrollmentLoop_true_eq (ecu : DateTime) (l : List CourseEnrollment) :
    enrollmentLoop ecu true l =
      (l.filter (fun e => DateTime.lexLe ecu e.created)).map enrollmentCells := by
  induction l with
  | nil => rfl
  | cons e rest ih =>
    cases h : DateTime.lexLe ecu e.created <;>
      simp [enrollmentLoop, List.filter_cons, h, ih]

/-- With the flag cleared, the enrollment loop keeps every enrollment. -/
theorem enrollmentLoop_false_eq (ecu : DateTime) (l : List CourseEnrollment) :
    enrollmentLoop ecu false l = l.map enrollmentCells := by
  induction l with
  | nil => rfl
  | cons e rest ih => simp [enrollmentLoop, ih]

/-- C1: for every learner, `enrollment_info` with the exclude flag set
returns exactly the owned enrollments whose `created` timestamp is ≥ the
learner's enterprise-customer-user creation timestamp, and with the flag
cleared returns all owned enrollments, preserving the owned order in both
cases (the results are the ordered `filter`/`map` images of the owned
sequence). -/
theorem enrollment_info_filter_rule (l : EnterpriseLearner) :
    l.enrollment_info true =
      (l.course_enrollments.filter
        (fun e => DateTime.lexLe l.ecu_created e.created)).map enrollmentCells ∧
    l.enrollment_info false = l.course_enrollments.map enrollmentCells :=
  ⟨enrollmentLoop_true_eq l.ecu_created l.course_enrollments,
   enrollmentLoop_false_eq l.ecu_created l.course_enrollments⟩

/-- C7: canonicalization is textual conversion — an integer and a string
with the same textual form canonicalize identically, canonicalizing an
already-canonical key is the identity, `42` and `"42"` agree, and grouping
records keyed by the canonicalizer merges an integer-keyed and a
string-keyed record into one group. -/
theorem canonicalize_textual (n : Int) (s : String) (h : toString n = s) :
    canonicalize (.int n) = canonicalize (.str s) ∧
    (∀ x : Scalar, canonicalize (.str (canonicalize x)) = canonicalize x) ∧
    canonicalize (.int 42) = canonicalize (.str "42") ∧
    keysOf (groupByKey (fun r : VerticaRecord => canonicalize r.lms_user_id)
      [⟨.int 42, "u", "e"⟩, ⟨.str "42", "u", "e"⟩]) = ["42"] := by
  refine ⟨by simp [canonicalize, h], ?_, by decide, by decide⟩
  intro x
  cases x <;> rfl

/-- C7 witness: the cross-type equality at the concrete pair 7 / "7". -/
theorem canonicalize_textual_witness :
    canonicalize (.int 7) = canonicalize (.str "7") :=
  (canonicalize_textual 7 "7" (by decide)).1

/-- The post-cutoff output of the account-age split is the ordered filter
of the input by `date_joined >= ENTERPRISE_CUTOFF_DATE`. -/
theorem splitAccounts_snd_eq (records : List AuthUserRecord) :
    (splitAccounts records).2 =
      records.filter
        (fun r => DateTime.lexLe ENTERPRISE_CUTOFF_DATE r.date_joined) := by
  induction records with
  | nil => rfl
  | cons r rest ih =>
    cases h : DateTime.lexLe ENTERPRISE_CUTOFF_DATE r.date_joined <;>
      simp [splitAccounts, List.filter_cons, h, ih]

/-- The pre-cutoff output of the account-age split is the ordered filter of
the input by the complementary test. -/
theorem splitAccounts_fst_eq (records : List AuthUserRecord) :
    (splitAccounts records).1 =
      records.filter
        (fun r => !(DateTime.lexLe ENTERPRISE_CUTOFF_DATE r.date_joined)) := by
  induction records with
  | nil => rfl
  | cons r rest ih =>
    cases h : DateTime.lexLe ENTERPRISE_CUTOFF_DATE r.date_joined <;>
      simp [splitAccounts, List.filter_cons, h, ih]

/-- C8: the account-age split classifies a record as post-cutoff
(enterprise) exactly when `date_joined >= 2017-05-01T00:00:00` and as
pre-cutoff (existing) otherwise; 2017-04-30 is pre-cutoff and 2017-05-01
post-cutoff, and the two output classes are disjoint and jointly cover the
input records. -/
theorem splitAccounts_cutoff_partition (records : List AuthUserRecord) :
    (splitAccounts records).2 =
      records.filter
        (fun r => DateTime.lexLe ENTERPRISE_CUTOFF_DATE r.date_joined) ∧
    (splitAccounts records).1 =
      records.filter
        (fun r => !(DateTime.lexLe ENTERPRISE_CUTOFF_DATE r.date_joined)) ∧
    DateTime.lexLe ENTERPRISE_CUTOFF_DATE ⟨2017, 4, 30, 0, 0, 0⟩ = false ∧
    DateTime.lexLe ENTERPRISE_CUTOFF_DATE ⟨2017, 5, 1, 0, 0, 0⟩ = true ∧
    (∀ r, r ∈ records ↔
      (r ∈ (splitAccounts records).1 ∨ r ∈ (splitAccounts records).2)) ∧
    (∀ r, r ∈ (splitAccounts records).1 → r ∉ (splitAccounts records).2) := by
  refine ⟨splitAccounts_snd_eq records, splitAccounts_fst_eq records,
    by decide, by decide, ?_, ?_⟩
  · intro r
    rw [splitAccounts_fst_eq, splitAccounts_snd_eq]
    cases h : DateTime.lexLe ENTERPRISE_CUTOFF_DATE r.date_joined <;>
      simp [List.mem_filter, h]
  · intro r hr hmem
    rw [splitAccounts_fst_eq] at hr
    rw [splitAccounts_snd_eq] at hmem
    rw [List.mem_filter] at hr hmem
    rw [hmem.2] at hr
    exact absurd hr.2 (by decide)

/-- C8 witness: at a two-account input straddling the boundary, the
pre-cutoff account is not among the post-cutoff output. -/
theorem splitAccounts_cutoff_partition_witness :
    accountPre ∉ (splitAccounts [accountPre, accountPost]).2 :=
  (splitAccounts_cutoff_partition [accountPre, accountPost]).2.2.2.2.2
    accountPre (by decide)

/-- C5: the exporter emits one row per filtered enrollment of a learner —
`n` qualifying enrollments yield `n` rows, every emitted row starts with
that learner's identity columns, and zero qualifying enrollments yield
zero rows (the function is total, so no error is possible). -/
theorem export_enrollments_row_per_enrollment (l : EnterpriseLearner) :
    l.export_enrollments.length = (l.enrollment_info true).length ∧
    (∀ r ∈ l.export_enrollments, r.take 4 = l.learner_info) ∧
    (l.enrollment_info true = [] → l.export_enrollments = []) := by
  refine ⟨List.length_map _ _, ?_, ?_⟩
  · intro r hr
    rw [EnterpriseLearner.export_enrollments] at hr
    obtain ⟨e, _, rfl⟩ := List.mem_map.1 hr
    have h4 : l.learner_info.length = 4 := rfl
    rw [← h4, List.take_left]
  · intro h
    rw [EnterpriseLearner.export_enrollments, h, List.map_nil]

/-- C5 witness: the sample learner (one pre-cutoff and one post-cutoff
enrollment) emits its single row with its identity columns in front. -/
theorem export_enrollments_row_per_enrollment_witness :
    sampleExportRow.take 4 = sampleLearner.learner_info :=
  (export_enrollments_row_per_enrollment sampleLearner).2.1
    sampleExportRow (by decide)

set_option maxRecDepth 16384 in
/-- C3 (code behaviour at the failing input): a supplied enterprise
customer REPLACES the base `lms_user_id IS NOT NULL` filter instead of
extending it — the resulting S0 where-clause has lost the base
unmatched-linkage condition and begins with a dangling " AND ", while with
no identifier the base filter is used. -/
theorem query_filter_replaced_not_narrowed :
    query_filter (some "abc") = " AND enterprise_id = \x27abc\x27" ∧
    strHas (vertica_query (query_filter (some "abc") ++ " AND course_id IS NULL"))
      "lms_user_id IS NOT NULL" = false ∧
    strLeads (query_filter (some "abc") ++ " AND course_id IS NULL") " AND " = true ∧
    query_filter none = "lms_user_id IS NOT NULL" ∧
    strHas (vertica_query (query_filter none ++ " AND course_id IS NULL"))
      "lms_user_id IS NOT NULL" = true := by
  refine ⟨rfl, by decide, by decide, rfl, by decide⟩

/-- C9 (code behaviour at the failing input): in `fetch_lms_data` the
connection is acquired inside the `try`, so a failed acquisition makes the
`finally` clause close an unbound local and the surfaced error is the
`NameError` from cleanup, not the acquisition error — unlike
`fetch_vertica_data`, whose `with` block propagates the acquisition error
unchanged; on the paths where a connection was acquired, both helpers
release it whether the query succeeds or fails. -/
theorem fetch_lms_data_masks_acquisition_error :
    (fetch_lms_data (Except.error PyError.connectionError)
      (Except.ok ([] : List VerticaRecord))).result =
        Except.error PyError.nameError ∧
    (fetch_vertica_data (Except.error PyError.connectionError)
      (Except.ok ([] : List VerticaRecord))).result =
        Except.error PyError.connectionError ∧
    (∀ execute : Except PyError (List VerticaRecord),
      (fetch_lms_data (Except.ok ()) execute).acquired = true ∧
      (fetch_lms_data (Except.ok ()) execute).released = true ∧
      (fetch_vertica_data (Except.ok ()) execute).acquired = true ∧
      (fetch_vertica_data (Except.ok ()) execute).released = true) := by
  refine ⟨rfl, rfl, ?_⟩
  intro execute
  cases execute <;> exact ⟨rfl, rfl, rfl, rfl⟩

/-! ## Lemmas about the grouping dictionaries -/

/-- Inserting into a group keeps the key list unchanged when the key is
already present and appends it otherwise. -/
theorem keysOf_insertGroup {α : Type} (m : List (String × List α))
    (k : String) (v : α) :
    keysOf (insertGroup m k v) =
      if k ∈ keysOf m then keysOf m else keysOf m ++ [k] := by
  induction m with
  | nil => simp [insertGroup, keysOf]
  | cons p rest ih =>
    obtain ⟨k0, vs⟩ := p
    by_cases h : k0 = k
    · subst h
      simp [insertGroup, keysOf]
    · simp only [insertGroup, if_neg h, keysOf, List.map_cons] at ih ⊢
      rw [ih]
      by_cases hk : k ∈ List.map Prod.fst rest
      · rw [if_pos hk, if_pos (List.mem_cons.2 (Or.inr hk))]
      · have hno : k ∉ k0 :: List.map Prod.fst rest := by
          intro hc
          rcases List.mem_cons.1 hc with hc | hc
          · exact h hc.symm
          · exact hk hc
        rw [if_neg hk, if_neg hno]
        rfl

/-- Key membership after a fold of group insertions. -/
theorem mem_keysOf_groupFold {α : Type} (key : α → String) (rs : List α)
    (m : List (String × List α)) (k : String) :
    k ∈ keysOf (rs.foldl (fun m r => insertGroup m (key r) r) m) ↔
      k ∈ keysOf m ∨ k ∈ rs.map key := by
  induction rs generalizing m with
  | nil => simp
  | cons r rest ih =>
    rw [List.foldl_cons, ih, keysOf_insertGroup]
    by_cases h : key r ∈ keysOf m
    · simp only [h, if_true, List.map_cons, List.mem_cons]
      constructor
      · intro hc
        rcases hc with hc | hc
        · exact Or.inl hc
        · exact Or.inr (Or.inr hc)
      · intro hc
        rcases hc with hc | hc | hc
        · exact Or.inl hc
        · exact Or.inl (hc ▸ h)
        · exact Or.inr hc
    · simp only [h, if_false, List.mem_append, List.mem_singleton,
        List.map_cons, List.mem_cons]
      tauto

/-- A key occurs in a built group exactly when some input record
canonicalizes to it. -/
theorem mem_keysOf_groupByKey {α : Type} (key : α → String) (rs : List α)
    (k : String) :
    k ∈ keysOf (groupByKey key rs) ↔ k ∈ rs.map key := by
  rw [groupByKey, mem_keysOf_groupFold]
  simp [keysOf]

/-- Folding group insertions never duplicates a key. -/
theorem nodup_keysOf_groupFold {α : Type} (key : α → String) (rs : List α)
    (m : List (String × List α)) (h : (keysOf m).Nodup) :
    (keysOf (rs.foldl (fun m r => insertGroup m (key r) r) m)).Nodup := by
  induction rs generalizing m with
  | nil => exact h
  | cons r rest ih =>
    rw [List.foldl_cons]
    refine ih _ ?_
    rw [keysOf_insertGroup]
    by_cases hk : key r ∈ keysOf m
    · simpa [hk] using h
    · simp [hk, List.nodup_append, h]

/-- The keys of a built group are pairwise distinct. -/
theorem nodup_keysOf_groupByKey {α : Type} (key : α → String) (rs : List α) :
    (keysOf (groupByKey key rs)).Nodup :=
  nodup_keysOf_groupFold key rs [] List.nodup_nil

/-- `pop` misses exactly when the key is absent. -/
theorem popKey_eq_none {α : Type} (m : List (String × List α)) (k : String) :
    popKey m k = none ↔ k ∉ keysOf m := by
  induction m with
  | nil => simp [popKey, keysOf]
  | cons p rest ih =>
    obtain ⟨k0, vs⟩ := p
    by_cases h : k0 = k
    · subst h
      simp [popKey, keysOf]
    · simp only [popKey, if_neg h, keysOf, List.map_cons, List.mem_cons] at ih ⊢
      rw [Option.map_eq_none', ih]
      constructor
      · intro hk hc
        rcases hc with hc | hc
        · exact h hc.symm
        · exact hk hc
      · intro hk hc
        exact hk (Or.inr hc)

/-- A successful `pop` removes exactly the first entry holding the key. -/
theorem popKey_some_keys {α : Type} :
    ∀ (m : List (String × List α)) (k : String) (vs : List α)
      (m' : List (String × List α)),
      popKey m k = some (vs, m') → keysOf m' = (keysOf m).erase k := by
  intro m
  induction m with
  | nil => intro k vs m' h; simp [popKey] at h
  | cons p rest ih =>
    intro k vs m' h
    obtain ⟨k0, vs0⟩ := p
    by_cases hk : k0 = k
    · subst hk
      simp [popKey] at h
      rw [← h.2]
      simp [keysOf, List.erase_cons]
    · simp only [popKey, if_neg hk] at h
      cases hrec : popKey rest k with
      | none => rw [hrec] at h; simp at h
      | some q =>
        obtain ⟨qvs, qrest⟩ := q
        rw [hrec] at h
        simp only [Option.map_some'] at h
        rw [Option.some.injEq, Prod.mk.injEq] at h
        rw [← h.2]
        have hq := ih k qvs qrest hrec
        simp only [keysOf, List.map_cons] at hq ⊢
        rw [List.erase_cons,
          if_neg (show ¬((k0 == k) = true) from by simp [hk]), hq]

/-- The S1 removal loop only ever removes keys: every key surviving it was
in the working group before it ran. -/
theorem removeResolvedLoop_subset :
    ∀ (records : List EceRecord) (m m' : List (String × List VerticaRecord)),
      removeResolvedLoop m records = .ok m' →
      ∀ k, k ∈ keysOf m' → k ∈ keysOf m := by
  intro records
  induction records with
  | nil =>
    intro m m' h k hk
    simp only [removeResolvedLoop, Except.ok.injEq] at h
    subst h
    exact hk
  | cons r rest ih =>
    intro m m' h k hk
    simp only [removeResolvedLoop] at h
    cases hrec : popKey m (canonicalize r.lms_user_id) with
    | none => rw [hrec] at h; exact absurd h (by simp)
    | some p =>
      rw [hrec] at h
      have hsub := ih p.2 m' h k hk
      have hkeys := popKey_some_keys m (canonicalize r.lms_user_id) p.1 p.2
        (by rw [hrec])
      rw [hkeys] at hsub
      exact List.mem_of_mem_erase hsub

/-- The S1 removal loop succeeds exactly when the records carry pairwise
distinct keys that are all present in the working group. -/
theorem removeResolvedLoop_ok_iff_aux :
    ∀ (records : List EceRecord) (m : List (String × List VerticaRecord)),
      (keysOf m).Nodup →
      (isOkE (removeResolvedLoop m records) = true ↔
        ((records.map (fun r => canonicalize r.lms_user_id)).Nodup ∧
          ∀ k ∈ records.map (fun r => canonicalize r.lms_user_id),
            k ∈ keysOf m)) := by
  intro records
  induction records with
  | nil =>
    intro m _
    simp [removeResolvedLoop, isOkE]
  | cons r rest ih =>
    intro m hnd
    simp only [removeResolvedLoop, List.map_cons]
    cases hrec : popKey m (canonicalize r.lms_user_id) with
    | none =>
      have hout : canonicalize r.lms_user_id ∉ keysOf m :=
        (popKey_eq_none _ _).1 hrec
      simp only [hrec, isOkE]
      constructor
      · intro hfalse
        exact absurd hfalse (by simp)
      · rintro ⟨-, hall⟩
        exact absurd (hall _ (List.mem_cons_self _ _)) hout
    | some p =>
      obtain ⟨pvs, prest⟩ := p
      have hmemk : canonicalize r.lms_user_id ∈ keysOf m := by
        by_contra hno
        rw [← popKey_eq_none m (canonicalize r.lms_user_id)] at hno
        rw [hrec] at hno
        exact absurd hno (by simp)
      have hkeys := popKey_some_keys m (canonicalize r.lms_user_id) pvs prest hrec
      have hnd' : (keysOf prest).Nodup := by
        rw [hkeys]
        exact hnd.erase _
      simp only [hrec]
      rw [ih prest hnd']
      constructor
      · rintro ⟨hndr, hall⟩
        have hall' : ∀ k ∈ rest.map (fun r => canonicalize r.lms_user_id),
            k ≠ canonicalize r.lms_user_id ∧ k ∈ keysOf m := by
          intro k hk
          have hin := hall k hk
          rw [hkeys] at hin
          exact (hnd.mem_erase_iff).1 hin
        refine ⟨?_, ?_⟩
        · rw [List.nodup_cons]
          refine ⟨?_, hndr⟩
          intro hin
          exact (hall' _ hin).1 rfl
        · intro k hk
          rcases List.mem_cons.1 hk with rfl | hk'
          · exact hmemk
          · exact (hall' _ hk').2
      · rintro ⟨hndc, hall⟩
        rw [List.nodup_cons] at hndc
        refine ⟨hndc.2, ?_⟩
        intro k hk
        rw [hkeys, hnd.mem_erase_iff]
        refine ⟨?_, hall k (List.mem_cons.2 (Or.inr hk))⟩
        intro heq
        exact hndc.1 (heq ▸ hk)

/-- C10: over the S0 working group, the S1 removal step succeeds exactly
when the transactional join records carry pairwise-distinct user keys all
present in P0; otherwise (in particular when two records share one
`lms_user_id`, so the second `pop` hits an already-removed key) it aborts
with a key-lookup error rather than a query failure. -/
theorem s1_removal_ok_iff_distinct_keys (vertica_data : List VerticaRecord)
    (records : List EceRecord) :
    isOkE (removeResolvedLoop
        (groupByKey (fun r => canonicalize r.lms_user_id) vertica_data)
        records) = true ↔
      ((records.map (fun r => canonicalize r.lms_user_id)).Nodup ∧
        ∀ k ∈ records.map (fun r => canonicalize r.lms_user_id),
          k ∈ keysOf (groupByKey (fun r => canonicalize r.lms_user_id)
            vertica_data)) :=
  removeResolvedLoop_ok_iff_aux records _ (nodup_keysOf_groupByKey _ _)

/-- C10 witness: on the sample working group, removing the single resolved
key succeeds. -/
theorem s1_removal_ok_iff_distinct_keys_witness :
    isOkE (removeResolvedLoop
        (groupByKey (fun r => canonicalize r.lms_user_id) sampleAnalytics)
        sampleEceStore) = true :=
  (s1_removal_ok_iff_distinct_keys sampleAnalytics sampleEceStore).mpr
    (by decide)

/-- C2: in every completed pipeline run, P1 (after removing the keys the
enterprise-course-enrollment join resolved) is a subset of P0, P2 (the
learners with platform course enrollments) is a subset of P1, and the
population computed by set difference (`P1 − P2`) is disjoint from the
subtracted set P2. -/
theorem pipeline_population_narrowing (ec : Option String)
    (analytics_unmatched : List VerticaRecord) (ece_store : List EceRecord)
    (sce_store : List CourseEnrollment) (ecu_store : List EcuRecord)
    (auth_store : List AuthUserRecord) (run : PipelineRun)
    (h : validate_enterprise_data ec analytics_unmatched ece_store sce_store
      ecu_store auth_store = .ok run) :
    (∀ k ∈ run.P1, k ∈ run.P0) ∧
    (∀ k ∈ run.P2, k ∈ run.P1) ∧
    (∀ k ∈ run.enterprise_learners_no_enrollments, k ∉ run.P2) := by
  simp only [validate_enterprise_data] at h
  split at h
  next e heq => exact absurd h (by simp)
  next g1 heq =>
    split at h
    next e2 heq2 => exact absurd h (by simp)
    next learners heq2 =>
      rw [Except.ok.injEq] at h
      subst h
      refine ⟨?_, ?_, ?_⟩
      · intro k hk
        exact removeResolvedLoop_subset _ _ _ heq k hk
      · intro k hk
        rw [mem_keysOf_groupByKey, List.mem_map] at hk
        obtain ⟨r, hr, rfl⟩ := hk
        rw [fetchByUserIds, List.mem_filter] at hr
        exact List.mem_of_elem_eq_true hr.2
      · intro k hk hmem
        rw [List.mem_filter] at hk
        have hfalse := hk.2
        rw [Bool.not_eq_true'] at hfalse
        have htrue : (keysOf (groupByKey (fun r => canonicalize r.lms_user_id)
            (fetchByUserIds (fun r => r.lms_user_id) sce_store
              (keysOf g1)))).contains k = true :=
          List.elem_eq_true_of_mem hmem
        rw [htrue] at hfalse
        exact absurd hfalse (by simp)

/-- C2 witness: on the sample run, the surviving learner key "7" of P1 is
indeed in P0. -/
theorem pipeline_population_narrowing_witness : "7" ∈ sampleRun.P0 :=
  (pipeline_population_narrowing none sampleAnalytics sampleEceStore
    sampleSceStore sampleEcuStore sampleAuthStore sampleRun rfl).1
    "7" (by decide)

set_option maxRecDepth 65536 in
/-- C4 counterexample: a run over empty stores completes, its working
population P0 is empty, and the S1 join query it issues nonetheless
contains the malformed clause "in ()" — the pipeline does not guard
against joining an empty population. -/
theorem empty_population_still_issues_join_query :
    validate_enterprise_data none [] [] [] [] [] = .ok emptyRun ∧
    emptyRun.P0 = [] ∧
    strHas emptyRun.s1_query "in ()" = true := by
  refine ⟨rfl, rfl, by decide⟩

set_option maxRecDepth 65536 in
/-- C4 (amended): the pipeline issues the S1 and S2 join queries
unconditionally — each is always the query template with the current
population's keys joined into its identifier list, so when that population
is empty the issued query contains the malformed "in ()" clause; there is
no guard, the data store is relied upon to reject it. -/
theorem join_queries_issued_unconditionally (ec : Option String)
    (analytics_unmatched : List VerticaRecord) (ece_store : List EceRecord)
    (sce_store : List CourseEnrollment) (ecu_store : List EcuRecord)
    (auth_store : List AuthUserRecord) (run : PipelineRun)
    (h : validate_enterprise_data ec analytics_unmatched ece_store sce_store
      ecu_store auth_store = .ok run) :
    run.s1_query = s1QueryString run.P0 ∧
    run.s2_query = s2QueryString run.P1 ∧
    (run.P0 = [] → strHas run.s1_query "in ()" = true) ∧
    (run.P1 = [] → strHas run.s2_query "in ()" = true) := by
  simp only [validate_enterprise_data] at h
  split at h
  next e heq => exact absurd h (by simp)
  next g1 heq =>
    split at h
    next e2 heq2 => exact absurd h (by simp)
    next learners heq2 =>
      rw [Except.ok.injEq] at h
      subst h
      refine ⟨rfl, rfl, ?_, ?_⟩
      · intro h0
        dsimp only at h0 ⊢
        rw [h0]
        decide
      · intro h1
        dsimp only at h1 ⊢
        rw [h1]
        decide

set_option maxRecDepth 65536 in
/-- C4 witness: the amended fact at the empty run — the issued S2 query
also carries the malformed empty identifier list. -/
theorem join_queries_issued_unconditionally_witness :
    strHas emptyRun.s2_query "in ()" = true :=
  (join_queries_issued_unconditionally none [] [] [] [] [] emptyRun rfl).2.2.2
    (by decide)

/-- C6 counterexample: a completed pipeline run writes no export file at
all (the call to the exporter at line 287 of the source is commented out),
so it does not produce exactly one delimited file. -/
theorem completed_run_writes_no_file :
    validate_enterprise_data none sampleAnalytics sampleEceStore
      sampleSceStore sampleEcuStore sampleAuthStore = .ok sampleRun ∧
    sampleRun.enterprise_learners.length = 1 ∧
    sampleRun.files.length = 0 := by
  refine ⟨rfl, by decide, by decide⟩

/-- C6 (amended): the pipeline itself writes no file, but the exporter it
declines to call would, when invoked with a run timestamp and the learner
population, produce one delimited file named with the timestamp whose
first row is the fixed header and whose remaining rows are the learners'
flattened enrollment rows, one per filtered enrollment. -/
theorem export_file_shape (now : DateTime)
    (learners : List EnterpriseLearner) :
    (export_missing_enterprise_course_enrollments now learners).name =
      "../output/missing_enterprise_course_enrollments_" ++
        now.strftimeStamp ++ ".csv" ∧
    (export_missing_enterprise_course_enrollments now learners).rows.head? =
      some ["LMS User ID", "LMS Username", "Enterprise Customer Name",
        "EnterpriseCustomerUser Created", "Course ID", "Enrollment Created",
        "Enrollment Active", "Enrollment Mode"] ∧
    (export_missing_enterprise_course_enrollments now learners).rows.tail =
      learners.flatMap EnterpriseLearner.export_enrollments ∧
    (export_missing_enterprise_course_enrollments now learners).rows.length =
      1 + (learners.map (fun l => (l.enrollment_info true).length)).sum := by
  refine ⟨rfl, rfl, rfl, ?_⟩
  simp only [export_missing_enterprise_course_enrollments, List.length_cons]
  rw [List.length_flatMap]
  have hmap : ∀ l : EnterpriseLearner,
      l.export_enrollments.length = (l.enrollment_info true).length :=
    fun l => List.length_map _ _
  rw [Nat.add_comm]
  congr 1
  apply congrArg
  apply List.map_congr_left
  intro l _
  exact hmap l
